import Mathlib

namespace DRL

/-!
Shallow embedding of the trading environment in `bot/src/trade_environment.py`
(`TradingEnv`).  Market prices and account quantities are modelled as exact
rationals; pandas rolling windows that are undefined during warm-up are
modelled as `Option`.
-/

/-! ### Feature pipeline (`TradingEnv._preprocess_data`) -/

/-- One bar of raw market data: the required columns open/high/low/close/spread
(the optional volume column is never read by the preprocessing code modelled
here). -/
structure Bar where
  opn : ℚ
  hi : ℚ
  lo : ℚ
  close : ℚ
  spread : ℚ

/-- `pd.Series(f).rolling(w).mean()` at index `t`: the mean of the `w` values
ending at `t`, undefined (NaN) while the window is not yet full. -/
def rollMean (w : ℕ) (f : ℕ → ℚ) (t : ℕ) : Option ℚ :=
  if w ≤ t + 1 then some (((List.range w).map fun i => f (t - i)).sum / (w : ℚ)) else none

/-- `pd.Series(close).diff().fillna(0)`. -/
def deltaSeq (close : ℕ → ℚ) (t : ℕ) : ℚ :=
  if t = 0 then 0 else close t - close (t - 1)

/-- `np.where(delta > 0, delta, 0)`. -/
def gainSeq (close : ℕ → ℚ) (t : ℕ) : ℚ := max (deltaSeq close t) 0

/-- `np.where(delta < 0, -delta, 0)`. -/
def lossSeq (close : ℕ → ℚ) (t : ℕ) : ℚ := max (-(deltaSeq close t)) 0

/-- The RSI column before normalisation: 14-period average gain over average
loss, with the ratio `rs` left at its zero initialisation where the loss
average is exactly zero (`rs = np.zeros_like(gain); mask = loss != 0;
rs[mask] = gain[mask]/loss[mask]`), then `100 - 100/(1+rs)`. -/
def rsiOpt (close : ℕ → ℚ) (t : ℕ) : Option ℚ :=
  (rollMean 14 (gainSeq close) t).bind fun g =>
    (rollMean 14 (lossSeq close) t).map fun l =>
      100 - 100 / (1 + (if l = 0 then 0 else g / l))

/-- `features_df['rsi'] = rsi / 50 - 1`. -/
def rsiFeat (close : ℕ → ℚ) (t : ℕ) : Option ℚ :=
  (rsiOpt close t).map fun r => r / 50 - 1

/-- True range `tr`, with the first value fixed to `high[0] - low[0]`. -/
def trSeq (d : ℕ → Bar) (t : ℕ) : ℚ :=
  if t = 0 then (d 0).hi - (d 0).lo
  else
    max ((d t).hi - (d t).lo)
      (max |(d t).hi - (d (t - 1)).close| |(d t).lo - (d (t - 1)).close|)

/-- `atr = pd.Series(tr).rolling(14).mean()`. -/
def atrOpt (d : ℕ → Bar) (t : ℕ) : Option ℚ := rollMean 14 (trSeq d) t

/-- The `atr / close` series used by the atr feature's min-max normalisation. -/
def atrRatioOpt (d : ℕ → Bar) (t : ℕ) : Option ℚ :=
  (atrOpt d t).map fun a => a / (d t).close

/-- The `1e-8` epsilon used by the source. -/
def eps : ℚ := 1 / 100000000

/-- The defined entries of the `atr / close` series over the whole dataset. -/
def atrRatioList (d : ℕ → Bar) (n : ℕ) : List ℚ :=
  (List.range n).filterMap (atrRatioOpt d)

/-- `np.nanmin` over the `atr/close` series: NaN entries are skipped. -/
def nanMinQ (l : List ℚ) : ℚ :=
  match l with
  | [] => 0
  | x :: xs => xs.foldl min x

/-- `np.nanmax` over the `atr/close` series: NaN entries are skipped. -/
def nanMaxQ (l : List ℚ) : ℚ :=
  match l with
  | [] => 0
  | x :: xs => xs.foldl max x

/-- `features_df['atr'] = 2*(atr/close - nanmin)/(nanmax - nanmin + 1e-8) - 1`. -/
def atrFeat (d : ℕ → Bar) (n t : ℕ) : Option ℚ :=
  (atrRatioOpt d t).map fun x =>
    2 * (x - nanMinQ (atrRatioList d n)) /
      (nanMaxQ (atrRatioList d n) - nanMinQ (atrRatioList d n) + eps) - 1

/-- `features_df['returns']`: close-over-close percent change, first value 0,
clipped to `[-0.1, 0.1]`. -/
def retSeq (close : ℕ → ℚ) (t : ℕ) : ℚ :=
  if t = 0 then 0
  else min (max ((close t - close (t - 1)) / close (t - 1)) (-(1 / 10))) (1 / 10)

/-- `features_df['candle_pattern']`: combined body/range and wick-ratio signal,
epsilon-padded denominators, clipped to `[-1, 1]`. -/
def candlePattern (d : ℕ → Bar) (t : ℕ) : ℚ :=
  let body := (d t).close - (d t).opn
  let upperWick := (d t).hi - max (d t).close (d t).opn
  let lowerWick := min (d t).close (d t).opn - (d t).lo
  let rng := (d t).hi - (d t).lo + eps
  min (max ((body / rng + (upperWick - lowerWick) / (upperWick + lowerWick + eps)) / 2) (-1)) 1

/-- Whether row `t` of `features_df` survives `dropna()`.  Only the rsi and atr
columns can hold NaN: `returns` has its first value explicitly set to 0,
`volatility_breakout` and `trend_strength` are built from `min_periods=1`
rollings followed by `fillna`, and `candle_pattern` has epsilon-padded
denominators (assuming well-formed bars with positive closes, so that no float
infinity/NaN arises from a zero price). -/
def rowDefined (d : ℕ → Bar) (n t : ℕ) : Bool :=
  (rsiFeat (fun u => (d u).close) t).isSome && (atrFeat d n t).isSome

/-- `lookback = max(20, atr_period)` with `atr_period = 14`. -/
def lookback : ℕ := max 20 14

/-- The row indices kept by preprocessing: `dropna()` first, then
`iloc[lookback:]`. -/
def preprocessKept (d : ℕ → Bar) (n : ℕ) : List ℕ :=
  ((List.range n).filter fun t => rowDefined d n t).drop lookback

def insufficientMsg : String := "Insufficient data after preprocessing"

/-- The construction-time preprocessing outcome on an `n`-row bar table:
the length of the trimmed feature series, or the insufficient-data error when
fewer than 100 usable rows remain. -/
def preprocess (d : ℕ → Bar) (n : ℕ) : Except String ℕ :=
  if (preprocessKept d n).length < 100 then Except.error insufficientMsg
  else Except.ok (preprocessKept d n).length

/-! ### Basic facts about the pipeline's warm-up structure -/

theorem rollMean_isSome (w : ℕ) (f : ℕ → ℚ) (t : ℕ) :
    (rollMean w f t).isSome = true ↔ w ≤ t + 1 := by
  unfold rollMean
  split <;> simp_all

theorem rowDefined_eq (d : ℕ → Bar) (n t : ℕ) :
    rowDefined d n t = decide (13 ≤ t) := by
  unfold rowDefined rsiFeat rsiOpt atrFeat atrRatioOpt atrOpt rollMean
  by_cases h : 14 ≤ t + 1
  · have h13 : 13 ≤ t := by omega
    simp [h, h13]
  · have h13 : ¬ 13 ≤ t := by omega
    simp [h, h13]

theorem filter_range_le_length (m n : ℕ) :
    ((List.range n).filter fun t => decide (m ≤ t)).length = n - m := by
  induction n with
  | zero => simp
  | succ k ih =>
    rw [List.range_succ, List.filter_append, List.length_append, ih]
    by_cases h : m ≤ k
    · simp only [List.filter_cons, List.filter_nil, decide_eq_true h, if_pos]
      simp only [List.length_cons, List.length_nil]
      omega
    · simp only [List.filter_cons, List.filter_nil]
      rw [if_neg (by simpa using h)]
      simp only [List.length_nil]
      omega

theorem preprocessKept_length (d : ℕ → Bar) (n : ℕ) :
    (preprocessKept d n).length = n - 33 := by
  unfold preprocessKept
  rw [List.length_drop]
  have hcong : ((List.range n).filter fun t => rowDefined d n t) =
      (List.range n).filter fun t => decide (13 ≤ t) :=
    List.filter_congr (fun x _ => rowDefined_eq d n x)
  rw [hcong, filter_range_le_length]
  unfold lookback
  omega

/-- A concrete constant bar used for evaluating the pipeline. -/
def constBar : Bar :=
  { opn := 1, hi := 2, lo := 1 / 2, close := 1, spread := 3 }

/-- C1 counterexample: a 120-row bar table on which construction fails with
the insufficient-data error (13 warm-up NaN rows plus the 20-bar trim leave
only 87 usable rows, below the 100-row floor). -/
theorem c1_counterexample :
    preprocess (fun _ => constBar) 120 = Except.error insufficientMsg := by
  have h : (preprocessKept (fun _ => constBar) 120).length = 87 := by
    rw [preprocessKept_length]
  unfold preprocess
  rw [h]
  simp

/-- C1 amended: for a well-formed bar table (positive closes, high at or above
low, so no float NaN beyond warm-up) construction succeeds exactly when the
table has at least 133 rows; the feature series length is the input length
minus the 13 rows with undefined rolling-window values minus the 20-bar
warm-up trim; with fewer than 133 rows (hence fewer than 100 usable rows)
construction fails with the insufficient-data error. -/
theorem c1_amended (d : ℕ → Bar) (n : ℕ)
    (hclose : ∀ t, 0 < (d t).close) (hbar : ∀ t, (d t).lo ≤ (d t).hi) :
    (133 ≤ n → preprocess d n = Except.ok (n - 13 - 20)) ∧
    (n < 133 → preprocess d n = Except.error insufficientMsg) := by
  have h := preprocessKept_length d n
  unfold preprocess
  constructor
  · intro hn
    rw [h, if_neg (by omega), show n - 33 = n - 13 - 20 by omega]
  · intro hn
    rw [h, if_pos (by omega)]

theorem c1_amended_witness :
    (∀ t : ℕ, 0 < ((fun _ : ℕ => constBar) t).close) ∧
    (∀ t : ℕ, ((fun _ : ℕ => constBar) t).lo ≤ ((fun _ : ℕ => constBar) t).hi) ∧
    preprocess (fun _ => constBar) 133 = Except.ok 100 := by
  refine ⟨fun t => by norm_num [constBar], fun t => by norm_num [constBar], ?_⟩
  have h := (c1_amended (fun _ => constBar) 133
    (fun t => by norm_num [constBar]) (fun t => by norm_num [constBar])).1 (by norm_num)
  simpa using h

/-- Helper: on the strictly increasing close series `t ↦ t`, every delta is
nonnegative, so the 14-period loss average at index 13 is exactly zero. -/
theorem lossAvg_inc_zero :
    rollMean 14 (lossSeq (fun t => (t : ℚ))) 13 = some 0 := by
  unfold rollMean
  rw [if_pos (by norm_num)]
  have hz : ∀ x ∈ (List.range 14).map fun i => lossSeq (fun t => (t : ℚ)) (13 - i), x = 0 := by
    intro x hx
    rcases List.mem_map.mp hx with ⟨i, _, rfl⟩
    unfold lossSeq deltaSeq
    by_cases h0 : 13 - i = 0
    · simp [h0]
    · rw [if_neg h0]
      have h1 : 1 ≤ 13 - i := Nat.one_le_iff_ne_zero.mpr h0
      have hc : ((13 - i - 1 : ℕ) : ℚ) = ((13 - i : ℕ) : ℚ) - 1 := by
        rw [Nat.cast_sub h1]
        norm_num
      show max (-(((13 - i : ℕ) : ℚ) - ((13 - i - 1 : ℕ) : ℚ))) 0 = 0
      rw [hc]
      have he : ((13 - i : ℕ) : ℚ) - (((13 - i : ℕ) : ℚ) - 1) = 1 := by ring
      rw [he]
      rw [max_eq_right (by norm_num : -(1 : ℚ) ≤ 0)]
  rw [List.sum_eq_zero hz]
  norm_num

/-- Helper: the gain rolling window is defined wherever the loss window is. -/
theorem rsiOpt_of_lossAvg_zero (close : ℕ → ℚ) (t : ℕ)
    (h : rollMean 14 (lossSeq close) t = some 0) :
    rsiOpt close t = some 0 := by
  have ht : 14 ≤ t + 1 := by
    by_contra hcon
    unfold rollMean at h
    rw [if_neg hcon] at h
    exact Option.noConfusion h
  have hsome : (rollMean 14 (gainSeq close) t).isSome = true :=
    (rollMean_isSome 14 (gainSeq close) t).mpr ht
  obtain ⟨g, hg⟩ := Option.isSome_iff_exists.mp hsome
  unfold rsiOpt
  rw [hg, h]
  simp

/-- C5 counterexample: on the strictly increasing close series `t ↦ t` the
14-period loss average at index 13 is exactly zero, the ratio is forced to
zero, and the oscillator value produced by the code is `0`, not `100` (so the
normalised feature is `-1`, not `+1`). -/
theorem c5_counterexample :
    rsiOpt (fun t => (t : ℚ)) 13 = some 0 ∧
      rsiOpt (fun t => (t : ℚ)) 13 ≠ some 100 := by
  have h0 := rsiOpt_of_lossAvg_zero (fun t => (t : ℚ)) 13 lossAvg_inc_zero
  refine ⟨h0, ?_⟩
  rw [h0]
  intro h
  have : (0 : ℚ) = 100 := Option.some.inj h
  norm_num at this

/-- C5 amended: whenever the 14-period loss average is exactly zero, the
gain/loss ratio is forced to zero instead of dividing by zero, which yields
oscillator value `0` (not `100`), and hence normalised rsi feature `-1` after
the `value/50 - 1` transform. -/
theorem c5_amended (close : ℕ → ℚ) (t : ℕ)
    (h : rollMean 14 (lossSeq close) t = some 0) :
    rsiOpt close t = some 0 ∧ rsiFeat close t = some (-1) := by
  have hrsi := rsiOpt_of_lossAvg_zero close t h
  refine ⟨hrsi, ?_⟩
  unfold rsiFeat
  rw [hrsi]
  norm_num

theorem c5_amended_witness :
    rollMean 14 (lossSeq (fun t => (t : ℚ))) 13 = some 0 ∧
    rsiOpt (fun t => (t : ℚ)) 13 = some 0 ∧
    rsiFeat (fun t => (t : ℚ)) 13 = some (-1) := by
  have h := c5_amended (fun t => (t : ℚ)) 13 lossAvg_inc_zero
  exact ⟨lossAvg_inc_zero, h.1, h.2⟩

/-! ### Trading state machine (`TradingEnv` step/reset and helpers) -/

/-- Trading constants fixed in `TradingEnv.__init__`. -/
def POINT_VALUE : ℚ := 1 / 100

def PIP_VALUE : ℚ := 1 / 10000

def MIN_LOTS : ℚ := 1 / 100

def MAX_LOTS : ℚ := 100

def MAX_DRAWDOWN : ℚ := 1 / 2

/-- An open position (`self.current_position`); the `entry_time` string of the
source is a presentation-only copy of the index at `entry_step` and is not
modelled. -/
structure Position where
  direction : ℤ
  entryPrice : ℚ
  lotSize : ℚ
  entryStep : ℕ
  entryAtr : ℚ
  currentProfitPips : ℚ
deriving DecidableEq

/-- A closed-trade record appended to `self.trades` (again without the
presentation-only `entry_time`/`exit_time` strings). -/
structure Trade where
  direction : ℤ
  entryPrice : ℚ
  lotSize : ℚ
  entryStep : ℕ
  entryAtr : ℚ
  exitPrice : ℚ
  exitStep : ℕ
  profitPips : ℚ
  pnl : ℚ
  holdTime : ℕ
deriving DecidableEq

/-- `self.trade_metrics`. -/
structure TradeMetrics where
  winRate : ℚ
  avgProfit : ℚ
  avgLoss : ℚ
  currentDirection : ℤ
deriving DecidableEq

/-- The immutable per-dataset data of the environment: the post-alignment
price/atr arrays, their common length, and the configured balances. -/
structure EnvParams where
  close : ℕ → ℚ
  hi : ℕ → ℚ
  lo : ℕ → ℚ
  spread : ℕ → ℚ
  atr : ℕ → ℚ
  dataLength : ℕ
  initialBalance : ℚ
  balancePerLot : ℚ

/-- The mutable state of the environment. -/
structure EnvState where
  currentStep : ℕ
  balance : ℚ
  maxBalance : ℚ
  previousBalance : ℚ
  trades : List Trade
  currentPosition : Option Position
  winCount : ℕ
  lossCount : ℕ
  episodeSteps : ℕ
  completedEpisodes : ℕ
  metrics : TradeMetrics
deriving DecidableEq

/-- Python `round(x, 2)`: scale by 100, round half to even (banker's
rounding), unscale. -/
def pyRound (x : ℚ) : ℤ :=
  let f := ⌊x⌋
  if x - f < 1 / 2 then f
  else if 1 / 2 < x - f then f + 1
  else if f % 2 = 0 then f else f + 1

def round2 (x : ℚ) : ℚ := (pyRound (x * 100) : ℚ) / 100

/-- The lot size computed in `_execute_trade`:
`max(MIN_LOTS, min(MAX_LOTS, round(balance / BALANCE_PER_LOT, 2)))`. -/
def lotSizeOf (P : EnvParams) (balance : ℚ) : ℚ :=
  max MIN_LOTS (min MAX_LOTS (round2 (balance / P.balancePerLot)))

/-- The position dictionary built in `_execute_trade`: entry price is the
current close plus the passed raw spread for a buy, minus it for a sell. -/
def openedPosition (P : EnvParams) (direction : ℕ) (rawSpread : ℚ) (s : EnvState) : Position :=
  { direction := if direction = 1 then 1 else -1
    entryPrice := P.close s.currentStep + (if direction = 1 then rawSpread else -rawSpread)
    lotSize := lotSizeOf P s.balance
    entryStep := s.currentStep
    entryAtr := P.atr s.currentStep
    currentProfitPips := 0 }

/-- `TradingEnv._execute_trade(direction, raw_spread)`: a no-op if a position
already exists, otherwise creates the position at the current cursor with the
spread charged on the entry price (added for a buy, subtracted for a sell). -/
def executeTrade (P : EnvParams) (direction : ℕ) (rawSpread : ℚ) (s : EnvState) : EnvState :=
  match s.currentPosition with
  | some _ => s
  | none =>
    { s with currentPosition := some (openedPosition P direction rawSpread s)
             metrics := { s.metrics with
                          currentDirection := (openedPosition P direction rawSpread s).direction } }

/-- Profit in price points of position `p` at cursor `t`. -/
def profitPointsAt (P : EnvParams) (t : ℕ) (p : Position) : ℚ :=
  if p.direction = 1 then P.close t - p.entryPrice else p.entryPrice - P.close t

/-- `winning_trades = [t for t in trades if t.pnl > 0]`. -/
def winningTrades (ts : List Trade) : List Trade := ts.filter fun t => decide (0 < t.pnl)

/-- `losing_trades = [t for t in trades if t.pnl <= 0]`. -/
def losingTrades (ts : List Trade) : List Trade := ts.filter fun t => decide (t.pnl ≤ 0)

/-- The `trade_metrics` recomputation at the end of `_close_position`
(guarded by `if self.trades:`; `current_direction` was already reset). -/
def recomputeMetrics (ts : List Trade) (old : TradeMetrics) : TradeMetrics :=
  match ts with
  | [] => old
  | _ :: _ =>
    { winRate := ((winningTrades ts).length : ℚ) / (ts.length : ℚ)
      avgProfit :=
        match winningTrades ts with
        | [] => 0
        | _ :: _ => ((winningTrades ts).map Trade.pnl).sum / ((winningTrades ts).length : ℚ)
      avgLoss :=
        match losingTrades ts with
        | [] => 0
        | _ :: _ => ((losingTrades ts).map Trade.pnl).sum / ((losingTrades ts).length : ℚ)
      currentDirection := old.currentDirection }

/-- The trade record built in `_close_position` when position `p` is closed
in state `s`: the exit price is the raw close at the cursor, with no spread
adjustment. -/
def closedTrade (P : EnvParams) (s : EnvState) (p : Position) : Trade :=
  { direction := p.direction
    entryPrice := p.entryPrice
    lotSize := p.lotSize
    entryStep := p.entryStep
    entryAtr := p.entryAtr
    exitPrice := P.close s.currentStep
    exitStep := s.currentStep
    profitPips := profitPointsAt P s.currentStep p / PIP_VALUE
    pnl := profitPointsAt P s.currentStep p * p.lotSize
    holdTime := s.currentStep - p.entryStep }

/-- The state mutation performed by `_close_position` when position `p` is
open: realise the pnl into the balance, increment exactly one of the win/loss
counters (`pnl > 0` wins, otherwise a loss), append the trade, clear the
position and recompute the metrics. -/
def closedState (P : EnvParams) (s : EnvState) (p : Position) : EnvState :=
  { s with
    trades := s.trades ++ [closedTrade P s p]
    winCount := if 0 < (closedTrade P s p).pnl then s.winCount + 1 else s.winCount
    lossCount := if 0 < (closedTrade P s p).pnl then s.lossCount else s.lossCount + 1
    balance := s.balance + (closedTrade P s p).pnl
    currentPosition := none
    metrics := recomputeMetrics (s.trades ++ [closedTrade P s p])
      { s.metrics with currentDirection := 0 } }

/-- The internal close-operation value: pnl normalised by the initial balance
times 100, scaled by the hold-time factor `min(1, hold_time / 20)`.  This
value is returned by `_close_position` but discarded by `step`. -/
def closeValue (P : EnvParams) (s : EnvState) (p : Position) : ℚ :=
  (closedTrade P s p).pnl / P.initialBalance * 100 *
    min 1 (((s.currentStep - p.entryStep : ℕ) : ℚ) / 20)

/-- `TradingEnv._close_position`: returns the internal reward value together
with the successor state.  With no open position it returns the fixed `-0.1`
penalty and changes nothing. -/
def closePosition (P : EnvParams) (s : EnvState) : ℚ × EnvState :=
  match s.currentPosition with
  | none => (-(1 / 10), s)
  | some p => (closeValue P s p, closedState P s p)

/-- The position after `_manage_position` refreshes its running pip figure at
cursor `t`. -/
def managedPosition (P : EnvParams) (t : ℕ) (p : Position) : Position :=
  { p with currentProfitPips := profitPointsAt P t p / PIP_VALUE }

/-- `TradingEnv._manage_position`: the unrealized pnl of the open position at
the current cursor, updating its running pip figure. -/
def managePosition (P : EnvParams) (s : EnvState) : ℚ × EnvState :=
  match s.currentPosition with
  | none => (0, s)
  | some p =>
    (profitPointsAt P s.currentStep p * p.lotSize,
      { s with currentPosition := some (managedPosition P s.currentStep p) })

/-- The bookkeeping done at the top of `TradingEnv.step`: snapshot the
previous balance, fold the balance into the running peak, and advance the
episode and cursor counters. -/
def advanceState (s : EnvState) : EnvState :=
  { s with
    previousBalance := s.balance
    maxBalance := max s.balance s.maxBalance
    episodeSteps := s.episodeSteps + 1
    currentStep := s.currentStep + 1 }

/-- The state reached inside `TradingEnv.step` after the balance snapshot,
peak update, cursor advance, action dispatch (with the action wrapped modulo
4 by `_process_action`) and unrealized-pnl recompute — i.e. the state at
which the termination conditions are evaluated. -/
def stepMid (P : EnvParams) (action : ℕ) (s : EnvState) : EnvState :=
  let a := action % 4
  let currentSpread := P.spread s.currentStep * POINT_VALUE
  let s2 :=
    if a = 1 then executeTrade P 1 currentSpread (advanceState s)
    else if a = 2 then executeTrade P 2 currentSpread (advanceState s)
    else if a = 3 then (closePosition P (advanceState s)).2
    else advanceState s
  (managePosition P s2).2

/-- The termination test of `TradingEnv.step`: end of data, bankruptcy, or
drawdown `(max_balance - balance)/max_balance` at or above `MAX_DRAWDOWN`. -/
def doneB (P : EnvParams) (m : EnvState) : Bool :=
  decide (P.dataLength - 1 ≤ m.currentStep) || decide (m.balance ≤ 0) ||
    decide (MAX_DRAWDOWN ≤ (m.maxBalance - m.balance) / m.maxBalance)

/-- The outputs of `TradingEnv.step` that the claims are about (the
observation vector `get_history` is not modelled). -/
structure StepResult where
  reward : ℚ
  terminated : Bool
  truncated : Bool
  state : EnvState
deriving DecidableEq

/-- `TradingEnv.step`: evaluate the mid-step state, auto-close any position
left open on termination, then compute the reward as
`(balance - previous_balance) / initial_balance`. -/
def step (P : EnvParams) (action : ℕ) (s : EnvState) : StepResult :=
  let m := stepMid P action s
  let done := doneB P m
  let s3 := if done && m.currentPosition.isSome then (closePosition P m).2 else m
  { reward := (s3.balance - s3.previousBalance) / P.initialBalance
    terminated := done
    truncated := decide (P.dataLength - 1 ≤ s3.currentStep)
    state := s3 }

/-- `max_start = max(0, data_length - 100)` in `TradingEnv.reset`. -/
def maxStart (P : EnvParams) : ℕ := max 0 (P.dataLength - 100)

/-- The set of start offsets `np.random.randint(0, max_start)` can return:
the half-open interval from 0 (inclusive) to `max_start` (exclusive). -/
def resetStartSet (P : EnvParams) : Finset ℕ := Finset.range (maxStart P)

/-- `TradingEnv.reset`: `draw` stands for the value returned by the random
start draw (only consulted when `randomStart` is set). -/
def reset (P : EnvParams) (randomStart : Bool) (draw : ℕ) (s : EnvState) : EnvState :=
  { currentStep := if randomStart then draw else 0
    balance := P.initialBalance
    maxBalance := P.initialBalance
    previousBalance := P.initialBalance
    trades := []
    currentPosition := none
    winCount := 0
    lossCount := 0
    episodeSteps := 0
    completedEpisodes := s.completedEpisodes + 1
    metrics := { winRate := 0, avgProfit := 0, avgLoss := 0, currentDirection := 0 } }

/-- The state left by `TradingEnv.__init__` after a successful construction. -/
def initState (P : EnvParams) : EnvState :=
  { currentStep := 0
    balance := P.initialBalance
    maxBalance := P.initialBalance
    previousBalance := P.initialBalance
    trades := []
    currentPosition := none
    winCount := 0
    lossCount := 0
    episodeSteps := 0
    completedEpisodes := 0
    metrics := { winRate := 0, avgProfit := 0, avgLoss := 0, currentDirection := 0 } }

/-- The engine states reachable after construction, resets and steps. -/
inductive Reachable (P : EnvParams) : EnvState → Prop where
  | init : Reachable P (initState P)
  | reset (s : EnvState) (randomStart : Bool) (draw : ℕ) :
      Reachable P s → Reachable P (reset P randomStart draw s)
  | step (s : EnvState) (action : ℕ) :
      Reachable P s → Reachable P (step P action s).state

/-! ### Concrete fixtures used to instantiate the theorems -/

/-- Concrete environment parameters: constant close 2, constant spread 1,
1000 usable bars, the spec's initial balance 10000 and 1000 per lot. -/
def demoParams : EnvParams :=
  { close := fun _ => 2
    hi := fun _ => 2
    lo := fun _ => 2
    spread := fun _ => 1
    atr := fun _ => 1
    dataLength := 1000
    initialBalance := 10000
    balancePerLot := 1000 }

/-- A previously recorded winning trade. -/
def winTrade : Trade :=
  { direction := 1
    entryPrice := 1
    lotSize := 1
    entryStep := 0
    entryAtr := 1
    exitPrice := 2
    exitStep := 1
    profitPips := 10000
    pnl := 1
    holdTime := 1 }

/-- An open long position whose entry price equals the demo close, so closing
it realises exactly zero pnl. -/
def breakevenPos : Position :=
  { direction := 1
    entryPrice := 2
    lotSize := 1
    entryStep := 1
    entryAtr := 1
    currentProfitPips := 0 }

/-- A state with one prior winning trade and a break-even open position. -/
def c10State : EnvState :=
  { currentStep := 3
    balance := 10000
    maxBalance := 10000
    previousBalance := 10000
    trades := [winTrade]
    currentPosition := some breakevenPos
    winCount := 1
    lossCount := 0
    episodeSteps := 3
    completedEpisodes := 0
    metrics := { winRate := 1, avgProfit := 1, avgLoss := 0, currentDirection := 1 } }

/-- A state whose drawdown reaches exactly one half with a position open. -/
def c6State : EnvState :=
  { currentStep := 2
    balance := 5000
    maxBalance := 10000
    previousBalance := 10000
    trades := []
    currentPosition := some breakevenPos
    winCount := 0
    lossCount := 0
    episodeSteps := 2
    completedEpisodes := 0
    metrics := { winRate := 0, avgProfit := 0, avgLoss := 0, currentDirection := 1 } }

/-! ### Helper lemmas about the operations -/

theorem closePosition_none (P : EnvParams) (s : EnvState) (h : s.currentPosition = none) :
    closePosition P s = (-(1 / 10), s) := by
  unfold closePosition
  rw [h]

theorem closePosition_some (P : EnvParams) (s : EnvState) (p : Position)
    (h : s.currentPosition = some p) :
    closePosition P s = (closeValue P s p, closedState P s p) := by
  unfold closePosition
  rw [h]

theorem managePosition_none (P : EnvParams) (s : EnvState) (h : s.currentPosition = none) :
    (managePosition P s).2 = s := by
  unfold managePosition
  rw [h]

theorem managePosition_some (P : EnvParams) (s : EnvState) (p : Position)
    (h : s.currentPosition = some p) :
    (managePosition P s).2 =
      { s with currentPosition := some (managedPosition P s.currentStep p) } := by
  unfold managePosition
  rw [h]

theorem executeTrade_some (P : EnvParams) (d : ℕ) (sp : ℚ) (s : EnvState) (p : Position)
    (h : s.currentPosition = some p) :
    executeTrade P d sp s = s := by
  unfold executeTrade
  rw [h]

theorem executeTrade_none (P : EnvParams) (d : ℕ) (sp : ℚ) (s : EnvState)
    (h : s.currentPosition = none) :
    executeTrade P d sp s =
      { s with currentPosition := some (openedPosition P d sp s)
               metrics := { s.metrics with
                            currentDirection := (openedPosition P d sp s).direction } } := by
  unfold executeTrade
  rw [h]

theorem stepMid_eq (P : EnvParams) (a : ℕ) (s : EnvState) :
    stepMid P a s =
      (managePosition P
        (if a % 4 = 1 then executeTrade P 1 (P.spread s.currentStep * POINT_VALUE) (advanceState s)
         else if a % 4 = 2 then
           executeTrade P 2 (P.spread s.currentStep * POINT_VALUE) (advanceState s)
         else if a % 4 = 3 then (closePosition P (advanceState s)).2
         else advanceState s)).2 := rfl

theorem step_state_eq (P : EnvParams) (a : ℕ) (s : EnvState) :
    (step P a s).state =
      (if doneB P (stepMid P a s) && (stepMid P a s).currentPosition.isSome
       then (closePosition P (stepMid P a s)).2 else stepMid P a s) := rfl

theorem step_reward_eq (P : EnvParams) (a : ℕ) (s : EnvState) :
    (step P a s).reward =
      ((step P a s).state.balance - (step P a s).state.previousBalance) / P.initialBalance := rfl

theorem step_terminated_eq (P : EnvParams) (a : ℕ) (s : EnvState) :
    (step P a s).terminated = doneB P (stepMid P a s) := rfl

theorem executeTrade_preserve (P : EnvParams) (d : ℕ) (sp : ℚ) (s : EnvState) :
    (executeTrade P d sp s).previousBalance = s.previousBalance ∧
    (executeTrade P d sp s).balance = s.balance ∧
    (executeTrade P d sp s).trades = s.trades ∧
    (executeTrade P d sp s).winCount = s.winCount ∧
    (executeTrade P d sp s).lossCount = s.lossCount := by
  cases h : s.currentPosition with
  | none => rw [executeTrade_none P d sp s h]; exact ⟨rfl, rfl, rfl, rfl, rfl⟩
  | some p => rw [executeTrade_some P d sp s p h]; exact ⟨rfl, rfl, rfl, rfl, rfl⟩

theorem closePosition_preserve (P : EnvParams) (s : EnvState) :
    ((closePosition P s).2).previousBalance = s.previousBalance ∧
    ((closePosition P s).2).maxBalance = s.maxBalance ∧
    ((closePosition P s).2).currentStep = s.currentStep := by
  cases h : s.currentPosition with
  | none => rw [closePosition_none P s h]; exact ⟨rfl, rfl, rfl⟩
  | some p => rw [closePosition_some P s p h]; exact ⟨rfl, rfl, rfl⟩

theorem managePosition_preserve (P : EnvParams) (s : EnvState) :
    ((managePosition P s).2).previousBalance = s.previousBalance ∧
    ((managePosition P s).2).balance = s.balance ∧
    ((managePosition P s).2).trades = s.trades ∧
    ((managePosition P s).2).winCount = s.winCount ∧
    ((managePosition P s).2).lossCount = s.lossCount := by
  cases h : s.currentPosition with
  | none => rw [managePosition_none P s h]; exact ⟨rfl, rfl, rfl, rfl, rfl⟩
  | some p => rw [managePosition_some P s p h]; exact ⟨rfl, rfl, rfl, rfl, rfl⟩

theorem stepMid_previousBalance (P : EnvParams) (a : ℕ) (s : EnvState) :
    (stepMid P a s).previousBalance = s.balance := by
  rw [stepMid_eq, (managePosition_preserve P _).1]
  split_ifs with h1 h2 h3
  · rw [(executeTrade_preserve P 1 _ _).1]; rfl
  · rw [(executeTrade_preserve P 2 _ _).1]; rfl
  · rw [(closePosition_preserve P _).1]; rfl
  · rfl

theorem step_previousBalance (P : EnvParams) (a : ℕ) (s : EnvState) :
    (step P a s).state.previousBalance = s.balance := by
  rw [step_state_eq]
  split
  · rw [(closePosition_preserve P _).1, stepMid_previousBalance]
  · exact stepMid_previousBalance P a s

theorem stepMid_close (P : EnvParams) (s : EnvState) :
    stepMid P 3 s = (managePosition P ((closePosition P (advanceState s)).2)).2 := rfl

theorem stepMid_hold (P : EnvParams) (s : EnvState) :
    stepMid P 0 s = (managePosition P (advanceState s)).2 := rfl

theorem stepMid_open_currentPosition (P : EnvParams) (d : ℕ) (s : EnvState)
    (h : s.currentPosition = none) (hd : d = 1 ∨ d = 2) :
    (stepMid P d s).currentPosition =
      some (managedPosition P (s.currentStep + 1)
        (openedPosition P d (P.spread s.currentStep * POINT_VALUE) (advanceState s))) := by
  have h1 : (advanceState s).currentPosition = none := h
  rcases hd with rfl | rfl
  · rw [show stepMid P 1 s =
        (managePosition P
          (executeTrade P 1 (P.spread s.currentStep * POINT_VALUE) (advanceState s))).2 from rfl,
      executeTrade_none P 1 _ (advanceState s) h1, managePosition_some P _ _ rfl]
    rfl
  · rw [show stepMid P 2 s =
        (managePosition P
          (executeTrade P 2 (P.spread s.currentStep * POINT_VALUE) (advanceState s))).2 from rfl,
      executeTrade_none P 2 _ (advanceState s) h1, managePosition_some P _ _ rfl]
    rfl

/-- C4: for every state and every action, the reward returned by `step` is
exactly `(balance - previousBalance) / initialBalance`, where
`previousBalance` is the balance snapshotted at the start of the step; in
particular unrealized price movement contributes nothing, and the hold-time
scaled `closeValue` computed inside the close operation is discarded by
`step` rather than returned. -/
theorem c4_reward_is_realised_balance_change (P : EnvParams) (a : ℕ) (s : EnvState) :
    (step P a s).reward = ((step P a s).state.balance - s.balance) / P.initialBalance := by
  rw [step_reward_eq, step_previousBalance]

/-- C2 amended: issuing Close with no open position leaves the balance, the
trade history and the win/loss counters unchanged and the reward returned by
`step` is `0` — not `-0.1`, which is only the internal `_close_position`
value that `step` discards (the peak balance is refreshed to
`max(balance, maxBalance)` as on every step); in the close-twice scenario the
first close returns the realized-pnl reward `pnl / initialBalance` and the
second returns `0`. -/
theorem c2_amended (P : EnvParams) (s : EnvState) :
    (s.currentPosition = none →
      (step P 3 s).reward = 0 ∧
      (step P 3 s).state.balance = s.balance ∧
      (step P 3 s).state.trades = s.trades ∧
      (step P 3 s).state.winCount = s.winCount ∧
      (step P 3 s).state.lossCount = s.lossCount ∧
      (step P 3 s).state.currentPosition = none ∧
      (step P 3 s).state.maxBalance = max s.balance s.maxBalance) ∧
    ∀ p, s.currentPosition = some p →
      (step P 3 s).reward =
        profitPointsAt P (s.currentStep + 1) p * p.lotSize / P.initialBalance := by
  have hadv : (advanceState s).currentPosition = s.currentPosition := rfl
  constructor
  · intro h
    have hmid : stepMid P 3 s = advanceState s := by
      rw [stepMid_close, closePosition_none P _ (by rw [hadv, h]),
        managePosition_none P _ (by rw [hadv, h])]
    have hstate : (step P 3 s).state = advanceState s := by
      rw [step_state_eq, hmid]
      have hnone : (advanceState s).currentPosition.isSome = false := by
        rw [hadv, h]; rfl
      rw [hnone, Bool.and_false]
      simp
    rw [step_reward_eq, hstate]
    refine ⟨by simp [advanceState], rfl, rfl, rfl, rfl, ?_, rfl⟩
    rw [hadv, h]
  · intro p h
    have h1 : (advanceState s).currentPosition = some p := by rw [hadv, h]
    have hmid : stepMid P 3 s = closedState P (advanceState s) p := by
      rw [stepMid_close, closePosition_some P _ p h1]
      exact managePosition_none P _ rfl
    have hstate : (step P 3 s).state = closedState P (advanceState s) p := by
      rw [step_state_eq, hmid]
      have hnone : (closedState P (advanceState s) p).currentPosition.isSome = false := rfl
      rw [hnone, Bool.and_false]
      simp
    rw [step_reward_eq, hstate]
    have hb : (closedState P (advanceState s) p).balance =
        s.balance + (closedTrade P (advanceState s) p).pnl := rfl
    have hpb : (closedState P (advanceState s) p).previousBalance = s.balance := rfl
    rw [hb, hpb, add_sub_cancel_left]
    rfl

/-- C2 counterexample: on a concrete flat state, the Close action through
`step` returns reward `0`, not the claimed `-0.1`. -/
theorem c2_counterexample :
    (step demoParams 3 (initState demoParams)).reward = 0 ∧
    (step demoParams 3 (initState demoParams)).reward ≠ -(1 / 10) := by
  have hmid : stepMid demoParams 3 (initState demoParams) =
      advanceState (initState demoParams) := by
    rw [stepMid_close, closePosition_none _ _ rfl, managePosition_none _ _ rfl]
  have hstate : (step demoParams 3 (initState demoParams)).state =
      advanceState (initState demoParams) := by
    rw [step_state_eq, hmid]
    have hnone : (advanceState (initState demoParams)).currentPosition.isSome = false := rfl
    rw [hnone, Bool.and_false]
    simp
  have hr : (step demoParams 3 (initState demoParams)).reward = 0 := by
    rw [step_reward_eq, hstate]
    simp [advanceState]
  refine ⟨hr, ?_⟩
  rw [hr]
  norm_num

theorem c2_amended_witness :
    (step demoParams 3 (initState demoParams)).reward = 0 ∧
    (step demoParams 3 c6State).reward =
      profitPointsAt demoParams (c6State.currentStep + 1) breakevenPos * breakevenPos.lotSize /
        demoParams.initialBalance := by
  exact ⟨((c2_amended demoParams (initState demoParams)).1 rfl).1,
    (c2_amended demoParams c6State).2 breakevenPos rfl⟩

/-- Helper: with `balancePerLot = 1000`, a balance of 10000 sizes to 10 lots:
`round(10000/1000, 2) = 10`, unchanged by the `[0.01, 100]` clamp. -/
theorem lotSizeOf_10000_1000 (P : EnvParams) (hb : P.balancePerLot = 1000) :
    lotSizeOf P (10000 : ℚ) = 10 := by
  unfold lotSizeOf round2 pyRound MIN_LOTS MAX_LOTS
  rw [hb]
  norm_num [min_def, max_def]

/-- C3 counterexample: with `initialBalance = 10000` and
`balancePerLot = 1000`, opening a position from the freshly constructed state
produces `lot_size = 10.0`, not the claimed `1.0`. -/
theorem c3_counterexample :
    ((stepMid demoParams 1 (initState demoParams)).currentPosition.map Position.lotSize) =
      some 10 ∧
    ((stepMid demoParams 1 (initState demoParams)).currentPosition.map Position.lotSize) ≠
      some 1 := by
  have h :=
    stepMid_open_currentPosition demoParams 1 (initState demoParams) rfl (Or.inl rfl)
  have hv : ((stepMid demoParams 1 (initState demoParams)).currentPosition.map
      Position.lotSize) = some (lotSizeOf demoParams (10000 : ℚ)) := by
    rw [h]
    rfl
  have h10 : lotSizeOf demoParams (10000 : ℚ) = 10 := lotSizeOf_10000_1000 demoParams rfl
  constructor
  · rw [hv, h10]
  · rw [hv, h10]
    intro hcon
    have : (10 : ℚ) = 1 := Option.some.inj hcon
    norm_num at this

/-- C3 amended: with `balancePerLot = 1000` and balance 10000, opening a
position produces `lot_size = 10.0`, computed as
`clamp(round(balance / balancePerLot, 2), 0.01, 100)`. -/
theorem c3_amended (P : EnvParams) (s : EnvState) (hb : P.balancePerLot = 1000)
    (hbal : s.balance = 10000) (h : s.currentPosition = none) :
    lotSizeOf P s.balance = 10 ∧
    ((stepMid P 1 s).currentPosition.map Position.lotSize) = some 10 := by
  have h10 : lotSizeOf P s.balance = 10 := by
    rw [hbal]
    exact lotSizeOf_10000_1000 P hb
  refine ⟨h10, ?_⟩
  rw [stepMid_open_currentPosition P 1 s h (Or.inl rfl)]
  have hlot : (managedPosition P (s.currentStep + 1)
      (openedPosition P 1 (P.spread s.currentStep * POINT_VALUE) (advanceState s))).lotSize =
      lotSizeOf P s.balance := rfl
  rw [Option.map_some', hlot, h10]

theorem c3_amended_witness :
    lotSizeOf demoParams (initState demoParams).balance = 10 ∧
    ((stepMid demoParams 1 (initState demoParams)).currentPosition.map Position.lotSize) =
      some 10 :=
  c3_amended demoParams (initState demoParams) rfl rfl rfl

/-- C7: opening from a flat state records
`entry = close + raw_spread` for a long and `entry = close - raw_spread` for
a short, where the raw spread is the spread column of the pre-advance bar
scaled by the point value and the close is the one at the advanced cursor;
closing charges no spread: the recorded exit price is the raw close at the
cursor. -/
theorem c7_entry_spread_exit_raw (P : EnvParams) (s : EnvState)
    (h : s.currentPosition = none) :
    ((stepMid P 1 s).currentPosition.map Position.entryPrice) =
      some (P.close (s.currentStep + 1) + P.spread s.currentStep * POINT_VALUE) ∧
    ((stepMid P 1 s).currentPosition.map Position.direction) = some 1 ∧
    ((stepMid P 2 s).currentPosition.map Position.entryPrice) =
      some (P.close (s.currentStep + 1) - P.spread s.currentStep * POINT_VALUE) ∧
    ((stepMid P 2 s).currentPosition.map Position.direction) = some (-1) ∧
    ∀ (m : EnvState) (q : Position), m.currentPosition = some q →
      (closePosition P m).2.trades = m.trades ++ [closedTrade P m q] ∧
      (closedTrade P m q).exitPrice = P.close m.currentStep := by
  refine ⟨?_, ?_, ?_, ?_, ?_⟩
  · rw [stepMid_open_currentPosition P 1 s h (Or.inl rfl)]
    rfl
  · rw [stepMid_open_currentPosition P 1 s h (Or.inl rfl)]
    rfl
  · rw [stepMid_open_currentPosition P 2 s h (Or.inr rfl)]
    rw [Option.map_some']
    have he : (managedPosition P (s.currentStep + 1)
        (openedPosition P 2 (P.spread s.currentStep * POINT_VALUE) (advanceState s))).entryPrice =
        P.close (s.currentStep + 1) + -(P.spread s.currentStep * POINT_VALUE) := rfl
    rw [he, sub_eq_add_neg]
  · rw [stepMid_open_currentPosition P 2 s h (Or.inr rfl)]
    rfl
  · intro m q hq
    rw [closePosition_some P m q hq]
    exact ⟨rfl, rfl⟩

theorem c7_witness :
    ((stepMid demoParams 1 (initState demoParams)).currentPosition.map Position.entryPrice) =
      some (201 / 100) ∧
    ((stepMid demoParams 2 (initState demoParams)).currentPosition.map Position.entryPrice) =
      some (199 / 100) ∧
    (closePosition demoParams c10State).2.trades =
      c10State.trades ++ [closedTrade demoParams c10State breakevenPos] ∧
    (closedTrade demoParams c10State breakevenPos).exitPrice = 2 := by
  have h := c7_entry_spread_exit_raw demoParams (initState demoParams) rfl
  have hclose := h.2.2.2.2 c10State breakevenPos rfl
  refine ⟨?_, ?_, hclose.1, ?_⟩
  · rw [h.1, show demoParams.close ((initState demoParams).currentStep + 1) +
        demoParams.spread (initState demoParams).currentStep * POINT_VALUE = (201 / 100 : ℚ) by
      norm_num [demoParams, POINT_VALUE, initState]]
  · rw [h.2.2.1, show demoParams.close ((initState demoParams).currentStep + 1) -
        demoParams.spread (initState demoParams).currentStep * POINT_VALUE = (199 / 100 : ℚ) by
      norm_num [demoParams, POINT_VALUE, initState]]
  · rw [hclose.2]
    rfl

/-- C6: whenever the termination test holds at the mid-step state — cursor at
the last usable index, balance at or below zero, or drawdown
`(maxBalance - balance)/maxBalance` at or above one half (including exactly
one half) — `step` reports `terminated = true`, the final state holds no open
position, and any position open at that moment is force-closed: its trade
record is appended to the history and its final pnl realised into the
balance. -/
theorem c6_termination (P : EnvParams) (a : ℕ) (s : EnvState)
    (h : doneB P (stepMid P a s) = true) :
    (step P a s).terminated = true ∧
    (step P a s).state.currentPosition = none ∧
    ∀ p, (stepMid P a s).currentPosition = some p →
      (step P a s).state.trades = (stepMid P a s).trades ++ [closedTrade P (stepMid P a s) p] ∧
      (step P a s).state.balance =
        (stepMid P a s).balance + (closedTrade P (stepMid P a s) p).pnl := by
  refine ⟨by rw [step_terminated_eq, h], ?_, ?_⟩
  · rw [step_state_eq]
    cases hc : (stepMid P a s).currentPosition with
    | none =>
      simp [hc]
    | some p =>
      rw [if_pos (by rw [h]; rfl)]
      rw [closePosition_some P _ p hc]
      rfl
  · intro p hp
    rw [step_state_eq, hp]
    rw [if_pos (by rw [h]; rfl)]
    rw [closePosition_some P _ p hp]
    exact ⟨rfl, rfl⟩

theorem c6_termination_witness :
    doneB demoParams (stepMid demoParams 0 c6State) = true ∧
    (step demoParams 0 c6State).terminated = true ∧
    (step demoParams 0 c6State).state.currentPosition = none ∧
    (step demoParams 0 c6State).state.trades =
      (stepMid demoParams 0 c6State).trades ++
        [closedTrade demoParams (stepMid demoParams 0 c6State)
          (managedPosition demoParams 3 breakevenPos)] := by
  have hm : stepMid demoParams 0 c6State =
      { advanceState c6State with
        currentPosition := some (managedPosition demoParams 3 breakevenPos) } := by
    rw [stepMid_hold, managePosition_some demoParams _ breakevenPos rfl]
    rfl
  have hd : doneB demoParams (stepMid demoParams 0 c6State) = true := by
    rw [hm]
    unfold doneB MAX_DRAWDOWN
    have hdd : ((1 : ℚ) / 2 ≤
        ((10000 : ℚ) - 5000) / 10000) := by norm_num
    have hmax : ({ advanceState c6State with
        currentPosition := some (managedPosition demoParams 3 breakevenPos) } :
          EnvState).maxBalance = (10000 : ℚ) := by
      show max (5000 : ℚ) 10000 = 10000
      norm_num [max_def]
    rw [hmax]
    have hbal : ({ advanceState c6State with
        currentPosition := some (managedPosition demoParams 3 breakevenPos) } :
          EnvState).balance = (5000 : ℚ) := rfl
    rw [hbal, decide_eq_true hdd]
    simp
  have h := c6_termination demoParams 0 c6State hd
  refine ⟨hd, h.1, h.2.1, ?_⟩
  exact (h.2.2 (managedPosition demoParams 3 breakevenPos) (by rw [hm])).1

/-- C8 counterexample: with 200 usable rows the claimed upper endpoint
`length - 100 = 100` is not a possible start offset — `np.random.randint`'s
upper bound is exclusive — while `99` is. -/
theorem c8_counterexample :
    (200 - 100) ∉ resetStartSet { demoParams with dataLength := 200 } ∧
    99 ∈ resetStartSet { demoParams with dataLength := 200 } := by
  constructor <;> simp [resetStartSet, maxStart, demoParams]

/-- C8 amended: with random start enabled the start offset is drawn uniformly
from the half-open integer interval from `0` to `length - 100` exclusive
(i.e. `[0, length - 101]`; the endpoint `length - 100` itself is never
drawn), and with random start disabled the start offset is `0`. -/
theorem c8_amended (P : EnvParams) (k draw : ℕ) (s : EnvState) :
    (k ∈ resetStartSet P ↔ k < P.dataLength - 100) ∧
    (reset P false draw s).currentStep = 0 := by
  constructor
  · rw [resetStartSet, Finset.mem_range, maxStart]
    omega
  · rfl

theorem counter_executeTrade (P : EnvParams) (d : ℕ) (sp : ℚ) (s : EnvState)
    (ih : s.winCount + s.lossCount = s.trades.length) :
    (executeTrade P d sp s).winCount + (executeTrade P d sp s).lossCount =
      (executeTrade P d sp s).trades.length := by
  rcases executeTrade_preserve P d sp s with ⟨-, -, h3, h4, h5⟩
  rw [h3, h4, h5]
  exact ih

theorem counter_managePosition (P : EnvParams) (s : EnvState)
    (ih : s.winCount + s.lossCount = s.trades.length) :
    (managePosition P s).2.winCount + (managePosition P s).2.lossCount =
      (managePosition P s).2.trades.length := by
  rcases managePosition_preserve P s with ⟨-, -, h3, h4, h5⟩
  rw [h3, h4, h5]
  exact ih

theorem counter_closePosition (P : EnvParams) (s : EnvState)
    (ih : s.winCount + s.lossCount = s.trades.length) :
    (closePosition P s).2.winCount + (closePosition P s).2.lossCount =
      (closePosition P s).2.trades.length := by
  cases hc : s.currentPosition with
  | none => rw [closePosition_none P s hc]; exact ih
  | some p =>
    rw [closePosition_some P s p hc]
    show (if 0 < (closedTrade P s p).pnl then s.winCount + 1 else s.winCount) +
        (if 0 < (closedTrade P s p).pnl then s.lossCount else s.lossCount + 1) =
      (s.trades ++ [closedTrade P s p]).length
    rw [List.length_append]
    split_ifs <;> simp <;> omega

theorem counter_stepMid (P : EnvParams) (a : ℕ) (s : EnvState)
    (ih : s.winCount + s.lossCount = s.trades.length) :
    (stepMid P a s).winCount + (stepMid P a s).lossCount = (stepMid P a s).trades.length := by
  rw [stepMid_eq]
  apply counter_managePosition
  split_ifs with h1 h2 h3
  · exact counter_executeTrade P 1 _ (advanceState s) ih
  · exact counter_executeTrade P 2 _ (advanceState s) ih
  · exact counter_closePosition P (advanceState s) ih
  · exact ih

theorem counter_step (P : EnvParams) (a : ℕ) (s : EnvState)
    (ih : s.winCount + s.lossCount = s.trades.length) :
    (step P a s).state.winCount + (step P a s).state.lossCount =
      (step P a s).state.trades.length := by
  rw [step_state_eq]
  split
  · exact counter_closePosition P _ (counter_stepMid P a s ih)
  · exact counter_stepMid P a s ih

/-- C9: at every reachable engine state — after construction, any reset, or
any sequence of steps — the single optional position slot holds at most one
open position, and the win counter plus the loss counter equals the length of
the closed-trade history.  (The at-most-one property is structural: the
source keeps the open position in the single `self.current_position` slot,
modelled here as the `Option Position` field.) -/
theorem c9_invariant (P : EnvParams) (s : EnvState) (hr : Reachable P s) :
    s.winCount + s.lossCount = s.trades.length ∧
    ∀ p q, s.currentPosition = some p → s.currentPosition = some q → p = q := by
  have key : s.winCount + s.lossCount = s.trades.length := by
    induction hr with
    | init => rfl
    | reset s' rs draw _ _ => rfl
    | step s' a _ ih => exact counter_step P a s' ih
  refine ⟨key, fun p q hp hq => ?_⟩
  rw [hp] at hq
  exact Option.some.inj hq

theorem c9_invariant_witness :
    (step demoParams 1 (initState demoParams)).state.winCount +
      (step demoParams 1 (initState demoParams)).state.lossCount =
      (step demoParams 1 (initState demoParams)).state.trades.length :=
  (c9_invariant demoParams _ (Reachable.step (initState demoParams) 1 Reachable.init)).1

theorem recomputeMetrics_winRate (ts : List Trade) (old : TradeMetrics) (h : ts ≠ []) :
    (recomputeMetrics ts old).winRate =
      ((winningTrades ts).length : ℚ) / (ts.length : ℚ) := by
  cases ts with
  | nil => exact absurd rfl h
  | cons a l => rfl

/-- C10: closing an open position whose realized pnl is exactly 0 increments
the loss counter and not the win counter; the break-even trade is counted
among the losing trades used for `avg_loss`; `win_rate` counts only trades
with pnl strictly greater than 0, so — provided at least one prior winning
trade exists — the break-even close strictly lowers the recomputed win
rate. -/
theorem c10_breakeven_is_loss (P : EnvParams) (s : EnvState) (p : Position)
    (h : s.currentPosition = some p) (h0 : (closedTrade P s p).pnl = 0) :
    (closePosition P s).2.lossCount = s.lossCount + 1 ∧
    (closePosition P s).2.winCount = s.winCount ∧
    (closePosition P s).2.trades = s.trades ++ [closedTrade P s p] ∧
    closedTrade P s p ∈ losingTrades ((closePosition P s).2.trades) ∧
    (closePosition P s).2.metrics.winRate =
      ((winningTrades ((closePosition P s).2.trades)).length : ℚ) /
        (((closePosition P s).2.trades).length : ℚ) ∧
    (1 ≤ (winningTrades s.trades).length →
      (closePosition P s).2.metrics.winRate <
        ((winningTrades s.trades).length : ℚ) / ((s.trades).length : ℚ)) := by
  rw [closePosition_some P s p h]
  have hnotwin : ¬ (0 : ℚ) < (closedTrade P s p).pnl := by
    rw [h0]
    exact lt_irrefl 0
  have htr : (closedState P s p).trades = s.trades ++ [closedTrade P s p] := rfl
  have hwinEq : winningTrades (s.trades ++ [closedTrade P s p]) = winningTrades s.trades := by
    unfold winningTrades
    rw [List.filter_append]
    have hsingle : List.filter (fun t => decide (0 < t.pnl)) [closedTrade P s p] = [] := by
      simp [hnotwin]
    rw [hsingle, List.append_nil]
  refine ⟨?_, ?_, htr, ?_, ?_, ?_⟩
  · show (if 0 < (closedTrade P s p).pnl then s.lossCount else s.lossCount + 1) = s.lossCount + 1
    rw [if_neg hnotwin]
  · show (if 0 < (closedTrade P s p).pnl then s.winCount + 1 else s.winCount) = s.winCount
    rw [if_neg hnotwin]
  · rw [htr]
    unfold losingTrades
    rw [List.mem_filter]
    refine ⟨List.mem_append_right _ (List.mem_singleton_self _), ?_⟩
    rw [h0]
    decide
  · show (recomputeMetrics (s.trades ++ [closedTrade P s p])
        { s.metrics with currentDirection := 0 }).winRate = _
    rw [recomputeMetrics_winRate _ _ (by simp), htr]
  · intro hw
    show (recomputeMetrics (s.trades ++ [closedTrade P s p])
        { s.metrics with currentDirection := 0 }).winRate < _
    rw [recomputeMetrics_winRate _ _ (by simp), hwinEq, List.length_append,
      List.length_singleton]
    have hn : 1 ≤ s.trades.length := le_trans hw (List.length_filter_le _ _)
    have hw' : (0 : ℚ) < ((winningTrades s.trades).length : ℚ) := by
      exact_mod_cast Nat.lt_of_lt_of_le Nat.zero_lt_one hw
    have hn' : (0 : ℚ) < ((s.trades).length : ℚ) := by
      exact_mod_cast Nat.lt_of_lt_of_le Nat.zero_lt_one hn
    have hn1 : (0 : ℚ) < ((s.trades.length + 1 : ℕ) : ℚ) := by positivity
    rw [div_lt_div_iff₀ hn1 hn']
    push_cast
    nlinarith [hw', hn']

theorem c10_breakeven_is_loss_witness :
    (closedTrade demoParams c10State breakevenPos).pnl = 0 ∧
    (closePosition demoParams c10State).2.lossCount = 1 ∧
    (closePosition demoParams c10State).2.winCount = 1 ∧
    (closePosition demoParams c10State).2.metrics.winRate <
      ((winningTrades c10State.trades).length : ℚ) / ((c10State.trades).length : ℚ) := by
  have h0 : (closedTrade demoParams c10State breakevenPos).pnl = 0 := by
    show profitPointsAt demoParams c10State.currentStep breakevenPos * breakevenPos.lotSize = 0
    unfold profitPointsAt
    norm_num [demoParams, breakevenPos, c10State]
  have h := c10_breakeven_is_loss demoParams c10State breakevenPos rfl h0
  have hw : 1 ≤ (winningTrades c10State.trades).length := by
    show 1 ≤ (List.filter (fun t => decide (0 < t.pnl)) [winTrade]).length
    norm_num [winTrade]
  exact ⟨h0, h.1, h.2.1, h.2.2.2.2.2 hw⟩

end DRL
